import Mathlib

/-!
Verification of the cclean path-classification and batch-deletion engine.

The definitions below are a shallow embedding of the Python sources:
 - `cclean/security_checker.py` (SecurityChecker)
 - `cclean/utils.py` (safe_delete_file, find_files, find_files_fast, scoring)
 - `cclean/cleaner.py` (CCleaner result aggregation and per-file processing)
 - `cclean/config.py` (constants)

Filesystem and process state is modelled explicitly: a `SysFile` carries the
observable attributes of one path (existence, stat data, permissions, the
outcome of each unlink attempt), an `Env` carries the ambient state (clock,
platform, running processes).  Python exceptions raised by individual OS
calls are modelled by boolean fields (`statFails`, `readFails`) and by the
`UnlinkOutcome` of each deletion attempt.
-/

namespace CClean

/-! ## ASCII string helpers (modelling Python str.lower/.upper, `in`, startswith, endswith) -/

def charLower (c : Char) : Char :=
  if 'A' ≤ c ∧ c ≤ 'Z' then Char.ofNat (c.toNat + 32) else c

def charUpper (c : Char) : Char :=
  if 'a' ≤ c ∧ c ≤ 'z' then Char.ofNat (c.toNat - 32) else c

def strLower (s : String) : String := ⟨s.data.map charLower⟩

def strUpper (s : String) : String := ⟨s.data.map charUpper⟩

/-- Python `pat in s` (substring test) on the underlying character lists. -/
def subListOf (pat : List Char) : List Char → Bool
  | [] => pat.isEmpty
  | c :: t => pat.isPrefixOf (c :: t) || subListOf pat t

def strContains (s pat : String) : Bool := subListOf pat.data s.data

def strStartsWith (s pat : String) : Bool := pat.data.isPrefixOf s.data

def strEndsWith (s pat : String) : Bool := pat.data.isSuffixOf s.data

/-- Python `pathlib.Path.suffix` computed from the final path component:
the part from the last dot, unless the dot is the first or last character. -/
def pathSuffix (name : String) : String :=
  let cs := name.data
  let n := cs.length
  match (List.range n).filter (fun i => cs.getD i ' ' = '.') |>.getLast? with
  | some i => if 0 < i ∧ i < n - 1 then ⟨cs.drop i⟩ else ""
  | none => ""

/-! ## Data model: files, processes, environment -/

/-- One process as seen through `psutil.process_iter`; `accessDenied` models
`psutil.AccessDenied` raised while enumerating its open files. -/
structure ProcInfo where
  pname : String
  pid : Nat
  openFiles : List String
  accessDenied : Bool
deriving DecidableEq, Repr

/-- Outcome of one `file_path.unlink()` attempt inside `safe_delete_file`. -/
inductive UnlinkOutcome where
  | ok
  | notFound
  | permErr
  | osErr
deriving DecidableEq, Repr, BEq

/-- Observable state of one filesystem path, as probed by the Python code.
`statFails` models `stat()` raising `OSError`; `readFails` models `open()`
raising `PermissionError`; `content` is the decoded first kilobyte
(`errors='ignore'` decoding never fails); `unlinkOutcomes` gives the outcome
of the successive unlink attempts (missing entries default to success). -/
structure SysFile where
  pathStr : String
  absPath : String
  name : String
  fexists : Bool
  isFile : Bool
  statFails : Bool
  size : Nat
  mtime : Int
  atime : Int
  readFails : Bool
  content : String
  parentWritable : Bool
  fileWritable : Bool
  chmodOk : Bool
  unlinkOutcomes : List UnlinkOutcome
deriving DecidableEq, Repr

/-- Ambient state: clock, platform, privileges, running processes. -/
structure Env where
  now : Int
  windows : Bool
  admin : Bool
  procs : List ProcInfo
deriving DecidableEq, Repr

/-- `stat()` succeeds: the file exists and stat does not raise. -/
def SysFile.statOk (f : SysFile) : Bool := f.fexists && !f.statFails

/-- `get_file_size` (utils.py): size in bytes, 0 if it cannot be read. -/
def getFileSize (f : SysFile) : Nat := if f.statOk then f.size else 0

/-! ## SecurityChecker (security_checker.py) -/

/-- `SecurityLevel` enum.  Its Python `value` is a string; the source compares
these strings with `>` in `check_file_security`. -/
inductive SecurityLevel where
  | safe
  | moderate
  | highRisk
  | critical
deriving DecidableEq, Repr

/-- The Python enum's string `value`. -/
def SecurityLevel.pyValue : SecurityLevel → String
  | .safe => "safe"
  | .moderate => "moderate"
  | .highRisk => "high_risk"
  | .critical => "critical"

/-- Python `<` on strings: lexicographic comparison by code point. -/
def listStrLt : List Char → List Char → Bool
  | [], [] => false
  | [], _ :: _ => true
  | _ :: _, [] => false
  | a :: as, b :: bs =>
    if a.toNat < b.toNat then true
    else if b.toNat < a.toNat then false
    else listStrLt as bs

def pyStrLt (a b : String) : Bool := listStrLt a.data b.data

/-- The comparison `a.value > b.value` performed by the source: Python string
(lexicographic) comparison of the enum values. -/
def pyValueGt (a b : SecurityLevel) : Bool := pyStrLt b.pyValue a.pyValue

/-- `SecurityResult` dataclass. -/
structure SecurityResult where
  is_safe : Bool
  security_level : SecurityLevel
  risk_factors : List String
  recommendations : List String
deriving DecidableEq, Repr

/-- `SecurityChecker.critical_directories`. -/
def criticalDirectories : List String :=
  [ "C:\\Windows\\System32",
    "C:\\Windows\\SysWOW64",
    "C:\\Windows\\Boot",
    "C:\\Program Files",
    "C:\\Program Files (x86)",
    "C:\\Windows\\Microsoft.NET",
    "C:\\Windows\\assembly",
    "C:\\Windows\\WinSxS" ]

/-- `SecurityChecker.high_risk_extensions`. -/
def highRiskExtensions : List String :=
  [".exe", ".dll", ".sys", ".bat", ".cmd", ".ps1",
   ".vbs", ".js", ".jar", ".msi", ".reg", ".inf"]

/-- `SecurityChecker.safe_temp_extensions` (the checker's own list, distinct
from config.SAFE_TEMP_EXTENSIONS). -/
def checkerSafeTempExtensions : List String :=
  [".tmp", ".temp", ".log", ".bak", ".old", ".cache",
   ".cookies", ".history", ".chk", ".gid", ".dmp"]

/-- `SecurityChecker.protected_processes`. -/
def protectedProcesses : List String :=
  ["explorer.exe", "dwm.exe", "winlogon.exe", "csrss.exe",
   "smss.exe", "wininit.exe", "services.exe", "lsass.exe",
   "svchost.exe", "System", "Registry"]

/-- `SecurityChecker._check_critical_directories`: the uppercased absolute
path is tested with `startswith` against each uppercased critical directory. -/
def checkCriticalDirectories (f : SysFile) : List String :=
  let fileStr := strUpper f.absPath
  (criticalDirectories.filter (fun d => strStartsWith fileStr (strUpper d))).map
    (fun d => "File in critical system directory: " ++ d)

/-- The nine regexes of `SecurityChecker.critical_patterns`, applied with
`re.match` to the lowercased file name: `.*\.XYZ$` is a suffix test and
`.*word.*` a substring test. -/
def criticalPatternMatches (nm : String) : List String :=
  (([ (".*\\.exe$", strEndsWith nm ".exe"),
      (".*\\.dll$", strEndsWith nm ".dll"),
      (".*\\.sys$", strEndsWith nm ".sys"),
      (".*\\.ini$", strEndsWith nm ".ini"),
      (".*\\.cfg$", strEndsWith nm ".cfg"),
      (".*\\.reg$", strEndsWith nm ".reg"),
      (".*boot.*", strContains nm "boot"),
      (".*system.*", strContains nm "system"),
      (".*ntuser.*", strContains nm "ntuser") ] :
    List (String × Bool)).filter (·.2)).map
    (fun p => "Matches critical pattern: " ++ p.1)

/-- `SecurityChecker._check_critical_patterns`. -/
def checkCriticalPatterns (f : SysFile) : List String :=
  criticalPatternMatches (strLower f.name)

/-- `SecurityChecker._check_file_extension`. -/
def checkFileExtension (f : SysFile) : List String × SecurityLevel :=
  let ext := strLower (pathSuffix f.name)
  if highRiskExtensions.contains ext then
    (["High-risk extension: " ++ ext], .highRisk)
  else if checkerSafeTempExtensions.contains ext then
    ([], .safe)
  else if ext = "" then
    (["No file extension"], .moderate)
  else
    (["Unknown extension: " ++ ext], .moderate)

/-- `SecurityChecker._check_file_age`: modification within 30 minutes or
access within 10 minutes; a failing `stat()` contributes an error factor. -/
def checkFileAge (env : Env) (f : SysFile) : List String :=
  if !f.statOk then ["Age check error"]
  else
    (if env.now - f.mtime < 1800 then ["File too recent"] else []) ++
    (if env.now - f.atime < 600 then ["File recently accessed"] else [])

/-- `SecurityChecker._check_file_size`: above 100MB or exactly zero bytes. -/
def checkFileSize (f : SysFile) : List String :=
  if !f.statOk then ["Size check error"]
  else if f.size > 100 * 1024 * 1024 then ["Large file size"]
  else if f.size = 0 then ["Empty file"]
  else []

/-- `SecurityChecker._check_file_in_use`: any non-protected, accessible
process holding the file open (paths compared case-insensitively). -/
def checkFileInUse (env : Env) (f : SysFile) : List String :=
  let fileStr := strUpper f.absPath
  (env.procs.filter (fun p =>
      !protectedProcesses.contains p.pname && !p.accessDenied &&
      p.openFiles.any (fun q => strUpper q = fileStr))).map
    (fun p => "File in use by process: " ++ p.pname)

/-- `config_indicators` of `SecurityChecker._check_file_content`. -/
def configIndicators : List String :=
  ["config", "setting", "registry", "key=", "value=",
   "password", "token", "secret", "api_key"]

/-- `SecurityChecker._check_file_content`: files of at most 1MB whose decoded
first kilobyte contains a configuration-like keyword (first match only);
stat or read failures contribute nothing. -/
def checkFileContent (f : SysFile) : List String :=
  if !f.statOk then []
  else if f.size > 1024 * 1024 then []
  else if f.readFails then []
  else
    match configIndicators.find? (fun ind => strContains (strLower f.content) ind) with
    | some ind => ["Contains " ++ ind ++ "-like content"]
    | none => []

/-- `SecurityChecker._generate_recommendations`. -/
def generateRecommendations : SecurityLevel → List String
  | .safe => ["Safe to delete without backup"]
  | .moderate => ["Safe to delete with backup", "Verify file is not needed before deletion"]
  | .highRisk => ["Requires special handling", "Create backup before any action",
                  "Manual verification recommended"]
  | .critical => ["DO NOT DELETE", "Critical system file or high-risk content"]

/-- `SecurityChecker.check_file_security`: the seven checks run in order and
update `security_level` exactly as the source does — checks 1 and 2 assign
Critical, check 3 assigns its level when `ext_level.value > security_level.value`
(a Python string comparison of the enum values), checks 4, 5 and 7 escalate
Safe to Moderate, and check 6 assigns HighRisk whenever a process holds the
file open. -/
def checkFileSecurity (env : Env) (f : SysFile) : SecurityResult :=
  if !f.fexists then
    { is_safe := false, security_level := .critical,
      risk_factors := ["File does not exist"],
      recommendations := ["Skip non-existent file"] }
  else if !f.isFile then
    { is_safe := false, security_level := .critical,
      risk_factors := ["Path is not a file"],
      recommendations := ["Only process files, not directories"] }
  else
    let dirF := checkCriticalDirectories f
    let l1 : SecurityLevel := if dirF ≠ [] then .critical else .safe
    let patF := checkCriticalPatterns f
    let l2 := if patF ≠ [] then .critical else l1
    let extR := checkFileExtension f
    let l3 := if extR.1 ≠ [] then (if pyValueGt extR.2 l2 then extR.2 else l2) else l2
    let ageF := checkFileAge env f
    let l4 := if ageF ≠ [] then (if l3 = .safe then .moderate else l3) else l3
    let sizeF := checkFileSize f
    let l5 := if sizeF ≠ [] then (if l4 = .safe then .moderate else l4) else l4
    let useF := checkFileInUse env f
    let l6 := if useF ≠ [] then .highRisk else l5
    let contF := checkFileContent f
    let l7 := if contF ≠ [] then (if l6 = .safe then .moderate else l6) else l6
    { is_safe := l7 = .safe ∨ l7 = .moderate,
      security_level := l7,
      risk_factors := dirF ++ patF ++ extR.1 ++ ageF ++ sizeF ++ useF ++ contF,
      recommendations := generateRecommendations l7 }

/-! ## Configuration constants (config.py) -/

/-- `PROTECTED_FILES`. -/
def PROTECTED_FILES : List String :=
  ["desktop.ini", "thumbs.db", ".gitkeep", "important.txt", "readme.txt"]

/-- `SAFE_TEMP_EXTENSIONS`. -/
def SAFE_TEMP_EXTENSIONS : List String :=
  [".tmp", ".temp", ".log", ".bak", ".old", ".cache", ".dmp",
   ".etl", ".evtx", ".manifest", ".blf", ".regtrans-ms", ".cab",
   ".chk", ".gid", ".fts", ".ftg", ".ftr", ".crdownload", ".partial",
   ".download", ".downloading", ".opdownload", ".oppart", ".bc!",
   ".!ut", ".aria2", ".torchdownload", ".crx", ".part", ".!qb"]

/-- `MIN_FILE_AGE_SECONDS` (one hour; the delete-path constant, distinct
from the security checker's 30-minute window). -/
def MIN_FILE_AGE_SECONDS : Int := 3600

/-- `FILE_PRIORITY_EXTENSIONS['high']`. -/
def priorityExtHigh : List String := [".tmp", ".temp", ".cache", ".log", ".bak", ".old"]

/-- `FILE_PRIORITY_EXTENSIONS['medium']`. -/
def priorityExtMedium : List String := [".dmp", ".evtx", ".etl", ".blf", ".regtrans-ms"]

/-- `FILE_PRIORITY_EXTENSIONS['low']`. -/
def priorityExtLow : List String := [".db", ".dat", ".idx", ".lock"]

/-! ## CleanupResult and its merge steps (config.py / cleaner.py) -/

/-- `CleanupResult` dataclass with its field defaults. -/
structure CleanupResult where
  files_scanned : Nat := 0
  files_deleted : Nat := 0
  bytes_freed : Nat := 0
  error_message : String := ""
  success : Bool := true
deriving DecidableEq, Repr

/-- A fresh `CleanupResult()`. -/
def CleanupResult.init : CleanupResult := {}

/-- The error-joining idiom used by every aggregation loop of cleaner.py:
append with `"; "` when an error message is already present. -/
def joinMsg (acc msg : String) : String :=
  if acc ≠ "" then acc ++ "; " ++ msg else msg

/-- The guarded aggregation step used when merging per-file results into a
batch, per-batch results into a path and per-path results into a category
(cleaner.py): counters are summed, and the error message is recorded with
`success := false` only when the constituent has `success=false` AND a
non-empty `error_message`. -/
def mergeGuarded (acc r : CleanupResult) : CleanupResult :=
  { files_scanned := acc.files_scanned + r.files_scanned,
    files_deleted := acc.files_deleted + r.files_deleted,
    bytes_freed := acc.bytes_freed + r.bytes_freed,
    error_message := if !r.success && r.error_message ≠ "" then
        joinMsg acc.error_message r.error_message else acc.error_message,
    success := if !r.success && r.error_message ≠ "" then false else acc.success }

/-- The aggregation step of `perform_full_scan` (cleaner.py lines 292-301):
`files_deleted` is not summed, and the guard is just `if not result.success`
(the error message is appended even when empty). -/
def mergeRunScan (acc r : CleanupResult) : CleanupResult :=
  { files_scanned := acc.files_scanned + r.files_scanned,
    files_deleted := acc.files_deleted,
    bytes_freed := acc.bytes_freed + r.bytes_freed,
    error_message := if !r.success then joinMsg acc.error_message r.error_message
      else acc.error_message,
    success := if !r.success then false else acc.success }

/-- The aggregation step of `perform_full_cleanup` (cleaner.py lines 339-349):
all three counters are summed; the guard is just `if not result.success`. -/
def mergeRunCleanup (acc r : CleanupResult) : CleanupResult :=
  { files_scanned := acc.files_scanned + r.files_scanned,
    files_deleted := acc.files_deleted + r.files_deleted,
    bytes_freed := acc.bytes_freed + r.bytes_freed,
    error_message := if !r.success then joinMsg acc.error_message r.error_message
      else acc.error_message,
    success := if !r.success then false else acc.success }

/-- Folding the guarded merge over a list of constituent results, starting
from a fresh accumulator, as the per-path and per-category loops do. -/
def aggGuarded (rs : List CleanupResult) : CleanupResult :=
  rs.foldl mergeGuarded CleanupResult.init

/-- Folding the `perform_full_cleanup` merge over the per-category results. -/
def aggRunCleanup (rs : List CleanupResult) : CleanupResult :=
  rs.foldl mergeRunCleanup CleanupResult.init

/-! ## Safe delete and its helper checks (utils.py) -/

/-- `is_system_file`: protected file names, and non-safe-extension files
whose path mentions a system directory. -/
def isSystemFile (f : SysFile) : Bool :=
  let fileName := strLower f.name
  if (PROTECTED_FILES.map strLower).contains fileName then true
  else
    let pathS := strLower f.pathStr
    if ["system32", "syswow64", "drivers"].any (fun d => strContains pathS d) then
      !SAFE_TEMP_EXTENSIONS.contains (strLower (pathSuffix f.name))
    else false

/-- `active_patterns` of `_is_likely_active_file`. -/
def activePatterns : List String :=
  [".lock", ".lck", ".pid", ".running", "lockfile", "lock.txt"]

/-- `_is_likely_active_file`: lock-style name patterns, or a modification
time within the last `MIN_FILE_AGE_SECONDS`; a failing `stat()` is ignored. -/
def isLikelyActiveFile (env : Env) (f : SysFile) : Bool :=
  let fileName := strLower f.name
  if activePatterns.any (fun p => strContains fileName p) then true
  else if f.statOk && env.now - f.mtime < MIN_FILE_AGE_SECONDS then true
  else false

/-- `_can_delete_file`: parent and file write permission, with a chmod
fallback for elevated Windows processes. -/
def canDeleteFile (env : Env) (f : SysFile) : Bool :=
  if !f.fexists then true
  else if !f.parentWritable then false
  else if !f.fileWritable then
    if env.windows && env.admin then f.chmodOk else false
  else true

/-- The retry loop of `safe_delete_file` (3 attempts): returns
(success, error message, file actually gone).  The outcome list gives each
successive attempt's outcome (an exhausted list means the attempt succeeds).
`FileNotFoundError` at any attempt is success; `PermissionError`/`OSError`
retries until the final attempt, whose error is reported. -/
def deleteAttemptLoop : List UnlinkOutcome → Nat → Bool × String × Bool
  | _, 0 => (false, "Failed after all retries", false)
  | [], _ + 1 => (true, "", true)
  | o :: rest, n + 1 =>
    match o with
    | .ok => (true, "", true)
    | .notFound => (true, "", true)
    | .permErr =>
      if n = 0 then (false, "Permission denied: unlink failed", false)
      else deleteAttemptLoop rest n
    | .osErr =>
      if n = 0 then (false, "OS Error: unlink failed", false)
      else deleteAttemptLoop rest n

/-- An unlink outcome on which the retry loop retries instead of stopping. -/
def retriableOutcome : UnlinkOutcome → Bool
  | .permErr => true
  | .osErr => true
  | _ => false

/-- Within the first `n` attempts, some attempt raises `FileNotFoundError`
after only retriable (permission/OS) failures before it. -/
def notFoundBefore : List UnlinkOutcome → Nat → Bool
  | _, 0 => false
  | [], _ + 1 => false
  | o :: rest, n + 1 => o == .notFound || (retriableOutcome o && notFoundBefore rest n)

/-- The 3-attempt loop encounters `FileNotFoundError` at some attempt. -/
def notFoundWithin3 (l : List UnlinkOutcome) : Bool := notFoundBefore l 3

/-- `safe_delete_file`: dry-run reports success untouched; a missing file is
success; then the protected-file, likely-active and permission gates; then
the 3-attempt unlink loop.  The returned `SysFile` is the path's state after
the call (the file is gone exactly when the loop reports it deleted). -/
def safeDeleteFile (env : Env) (f : SysFile) (dryRun : Bool) : Bool × String × SysFile :=
  if dryRun then (true, "", f)
  else if !f.fexists then (true, "", f)
  else if isSystemFile f then (false, "File is protected system file", f)
  else if isLikelyActiveFile env f then (false, "File appears to be in active use", f)
  else if !canDeleteFile env f then (false, "Insufficient permissions to delete file", f)
  else
    let r := deleteAttemptLoop f.unlinkOutcomes 3
    (r.1, r.2.1, if r.2.2 then { f with fexists := false } else f)

/-- `is_safe_to_delete` (utils.py): the fallback safety check used when the
enhanced security checks are disabled. -/
def isSafeToDelete (env : Env) (f : SysFile) : Bool :=
  if isSystemFile f then false
  else if isLikelyActiveFile env f then false
  else
    let fileName := strLower f.name
    let fileExt := strLower (pathSuffix f.name)
    if SAFE_TEMP_EXTENSIONS.contains fileExt then true
    else if ["temp", "tmp", "cache"].any (fun d => strContains (strLower f.pathStr) d) &&
        (strStartsWith fileName "tmp" || strStartsWith fileName "~" ||
         strStartsWith fileName "_" || strContains fileName ".tmp" ||
         strContains fileName ".temp" || strContains fileName ".cache" ||
         strContains fileName ".bak" || strContains fileName ".old") then
      f.statOk && env.now - f.mtime ≥ MIN_FILE_AGE_SECONDS
    else
      SAFE_TEMP_EXTENSIONS.contains fileExt && (f.statOk && f.size < 100 * 1024 * 1024)

/-- `get_file_priority_score` (utils.py): extension tier, path keywords and
size tier; a failing `stat()` contributes no size points. -/
def getFilePriorityScore (f : SysFile) : Nat :=
  let fileExt := strLower (pathSuffix f.name)
  let fileStr := strLower f.pathStr
  let extScore : Nat :=
    if priorityExtHigh.contains fileExt then 100
    else if priorityExtMedium.contains fileExt then 50
    else if priorityExtLow.contains fileExt then 25
    else 0
  let pathScore : Nat :=
    (if strContains fileStr "temp" || strContains fileStr "cache" then 30 else 0) +
    (if strContains fileStr "log" then 20 else 0) +
    (if strContains fileStr "old" || strContains fileStr "backup" then 15 else 0)
  let sizeScore : Nat :=
    if !f.statOk then 0
    else if f.size > 10 * 1024 * 1024 then 50
    else if f.size > 1024 * 1024 then 25
    else if f.size > 100 * 1024 then 10
    else 0
  extScore + pathScore + sizeScore

/-- `dangerous_patterns` of `CCleaner._quick_safety_check`. -/
def quickDangerousPatterns : List String :=
  ["system32", "syswow64", "drivers", "boot", "recovery",
   "windows\\system", "program files", "programdata",
   ".exe", ".dll", ".sys", ".ini", ".cfg"]

/-- `CCleaner._quick_safety_check`: reject when the lowercased path contains
any dangerous substring. -/
def quickSafetyCheck (f : SysFile) : Bool :=
  let fileStr := strLower f.pathStr
  !quickDangerousPatterns.any (fun p => strContains fileStr p)

/-! ## Per-file and per-batch processing (cleaner.py) -/

/-- The CCleaner switches read by the processing code paths. -/
structure CleanerFlags where
  dryRun : Bool
  enableSecurityChecks : Bool
  stopRequested : Bool
deriving DecidableEq, Repr

/-- One entry of `CCleaner.failed_deletions`. -/
structure FailRec where
  path : String
  error : String
deriving DecidableEq, Repr

/-- The "common permission/usage issues" test of `_process_single_file`
(substring tests on the deletion error message). -/
def isCommonDeleteError (msg : String) : Bool :=
  strContains msg "Permission denied" ||
  strContains msg "appears to be in active use" ||
  strContains msg "Insufficient permissions"

/-- The tail of `CCleaner._process_single_file` after the safety gates: the
zero-size skip, the scan-only branch, and the deletion branch with its
common-error (permission/in-use) silent-skip handling.  Returns the result,
the path's post-state and the appended failed-deletion records. -/
def processFileSized (env : Env) (fl : CleanerFlags) (f : SysFile) (scanOnly : Bool) :
    CleanupResult × SysFile × List FailRec :=
  let fileSize := getFileSize f
  if fileSize = 0 then (CleanupResult.init, f, [])
  else if scanOnly then
    ({ files_scanned := 1, bytes_freed := fileSize, success := true }, f, [])
  else
    let d := safeDeleteFile env f fl.dryRun
    if d.1 then
      ({ files_scanned := 1, files_deleted := 1, bytes_freed := fileSize, success := true },
        d.2.2, [])
    else if !isCommonDeleteError d.2.1 then
      ({ files_scanned := 1, bytes_freed := fileSize, error_message := d.2.1,
         success := false }, d.2.2, [⟨f.pathStr, d.2.1⟩])
    else
      ({ files_scanned := 0, bytes_freed := 0, success := true }, d.2.2,
        [⟨f.pathStr, d.2.1⟩])

/-- `CCleaner._process_single_file`: the enhanced security gates (or the
`is_safe_to_delete` fallback) followed by `processFileSized`. -/
def processSingleFile (env : Env) (fl : CleanerFlags) (f : SysFile) (scanOnly : Bool) :
    CleanupResult × SysFile × List FailRec :=
  if fl.enableSecurityChecks then
    if (checkFileSecurity env f).security_level = .critical then (CleanupResult.init, f, [])
    else if (checkFileSecurity env f).security_level = .highRisk then (CleanupResult.init, f, [])
    else if !(checkFileSecurity env f).is_safe then (CleanupResult.init, f, [])
    else processFileSized env fl f scanOnly
  else
    if !isSafeToDelete env f then (CleanupResult.init, f, [])
    else processFileSized env fl f scanOnly

/-- The condition under which `_process_single_file` proceeds past its
safety gates to size lookup and deletion (enhanced checks enabled: not
Critical, not HighRisk, and `is_safe`; otherwise the `is_safe_to_delete`
fallback). -/
def securityGatePasses (env : Env) (fl : CleanerFlags) (f : SysFile) : Bool :=
  if fl.enableSecurityChecks then
    !((checkFileSecurity env f).security_level = SecurityLevel.critical) &&
    !((checkFileSecurity env f).security_level = SecurityLevel.highRisk) &&
    (checkFileSecurity env f).is_safe
  else isSafeToDelete env f

/-- The loop body of `CCleaner._process_file_batch`: check the stop flag,
process one file, merge its result with the guarded merge. -/
def batchStep (env : Env) (fl : CleanerFlags) (scanOnly : Bool)
    (acc : CleanupResult) (f : SysFile) : CleanupResult :=
  if fl.stopRequested then acc
  else mergeGuarded acc (processSingleFile env fl f scanOnly).1

/-- `CCleaner._process_file_batch`: files processed sequentially, each file's
result merged with the guarded merge; the cooperative stop flag is read at
the top of the loop (constant here: it is set from another thread). -/
def processFileBatch (env : Env) (fl : CleanerFlags) (files : List SysFile)
    (scanOnly : Bool) : CleanupResult :=
  files.foldl (batchStep env fl scanOnly) CleanupResult.init

/-- One scored candidate of `_process_file_batch_fast`: the Python sort key
`(total_score, file_path, file_size)` with the path modelled by its
case-folded string, plus the file itself. -/
structure ScoredFile where
  score : Nat
  key : String
  fsize : Nat
  file : SysFile
deriving DecidableEq, Repr

/-- Descending comparison on the `(score, path, size)` sort key, modelling
`list.sort(reverse=True)` on the Python tuples. -/
def scoredGe (a b : ScoredFile) : Bool :=
  if a.score ≠ b.score then a.score > b.score
  else if a.key ≠ b.key then pyStrLt b.key a.key
  else a.fsize ≥ b.fsize

def insertScoredDesc (x : ScoredFile) : List ScoredFile → List ScoredFile
  | [] => [x]
  | y :: t => if scoredGe y x then y :: insertScoredDesc x t else x :: y :: t

/-- Sort the scored candidates descending (insertion sort). -/
def sortScoredDesc (l : List ScoredFile) : List ScoredFile :=
  l.foldr insertScoredDesc []

/-- The per-file loop body of `_process_file_batch_fast`: quick safety check,
unconditional scanned/bytes increment, then optional deletion; a failed
deletion only appends a failed-deletion record. -/
def fastBatchStep (env : Env) (fl : CleanerFlags) (scanOnly : Bool)
    (acc : CleanupResult × List FailRec) (sf : ScoredFile) :
    CleanupResult × List FailRec :=
  if fl.stopRequested then acc
  else if fl.enableSecurityChecks && !quickSafetyCheck sf.file then acc
  else
    let acc1 := { acc.1 with files_scanned := acc.1.files_scanned + 1,
                             bytes_freed := acc.1.bytes_freed + sf.fsize }
    if scanOnly then (acc1, acc.2)
    else
      let d := safeDeleteFile env sf.file fl.dryRun
      if d.1 then
        ({ acc1 with files_deleted := acc1.files_deleted + 1 }, acc.2)
      else (acc1, acc.2 ++ [⟨sf.file.pathStr, d.2.1⟩])

/-- `CCleaner._process_file_batch_fast`: keep the files of non-zero readable
size, score and sort them descending, then run the sequential loop.  Returns
the batch result and the appended failed-deletion records. -/
def processFileBatchFast (env : Env) (fl : CleanerFlags) (files : List SysFile)
    (scanOnly : Bool) : CleanupResult × List FailRec :=
  let valid := files.filter (fun f => getFileSize f > 0)
  if valid.isEmpty then (CleanupResult.init, [])
  else
    let scored := valid.map (fun f =>
      ({ score := getFilePriorityScore f + getFileSize f / (1024 * 1024),
         key := strLower f.pathStr, fsize := getFileSize f, file := f } : ScoredFile))
    (sortScoredDesc scored).foldl (fastBatchStep env fl scanOnly) (CleanupResult.init, [])

/-! ## Tree walkers (utils.py: find_files_fast and find_files)

Directory trees are modelled explicitly; both walkers are breadth-first
loops over an explicit queue, embedded with a fuel parameter bounding the
number of iterations of the `while` loop (one dequeued directory per
iteration; the fuel chosen at the top level is the total number of tree
nodes, which the loop can never exceed).  Both walkers are embedded for the
`pattern="*"`, `recursive=True` calls the cleaner makes, so every regular
file encountered is yielded as a (directory components below the root,
file name) pair. -/

inductive FSTree where
  | file (name : String) (size : Nat)
  | dir (name : String) (entries : List FSTree)

mutual

/-- Number of nodes: an upper bound on the directories a walk can dequeue. -/
def fsCount : FSTree → Nat
  | .file _ _ => 1
  | .dir _ entries => 1 + fsCountList entries

def fsCountList : List FSTree → Nat
  | [] => 0
  | t :: ts => fsCount t + fsCountList ts

end

/-- `_is_protected_system_dir` (utils.py). -/
def isProtectedSystemDir (dirname : String) : Bool :=
  ["system32", "syswow64", "drivers", "winsxs", "system",
   "catroot", "catroot2", "servicing", "en-us", "fonts",
   "ime", "migwiz", "oobe", "setup", "speech", "twain_32"].contains
    (strLower dirname)

/-- The Python truthiness test `if max_files and file_count >= max_files`
guarding the per-entry break. -/
def maxFilesBreak (maxFiles : Option Nat) (count : Nat) : Bool :=
  match maxFiles with
  | some m => m ≠ 0 && count ≥ m
  | none => false

/-- The `while` guard `max_files is None or file_count < max_files`. -/
def maxFilesStop (maxFiles : Option Nat) (count : Nat) : Bool :=
  match maxFiles with
  | some m => count ≥ m
  | none => false

/-- The inner `for entry in entries` loop of `find_files_fast`: yield files,
enqueue non-protected subdirectories with remaining depth budget.  Returns
(yields, enqueued directories, updated file count). -/
def fastScanEntries (maxFiles : Option Nat) (maxDepth : Nat) (path : List String)
    (depth : Nat) :
    List FSTree → Nat → List (List String × String) × List (FSTree × List String × Nat) × Nat
  | [], count => ([], [], count)
  | e :: rest, count =>
    if maxFilesBreak maxFiles count then ([], [], count)
    else
      match e with
      | .file nm _ =>
        let r := fastScanEntries maxFiles maxDepth path depth rest (count + 1)
        ((path, nm) :: r.1, r.2.1, r.2.2)
      | .dir nm entries =>
        if depth < maxDepth - 1 && !isProtectedSystemDir nm then
          let r := fastScanEntries maxFiles maxDepth path depth rest count
          (r.1, (FSTree.dir nm entries, path ++ [nm], depth + 1) :: r.2.1, r.2.2)
        else fastScanEntries maxFiles maxDepth path depth rest count

/-- The `while dirs_to_process` loop of `find_files_fast`, with explicit
fuel; each iteration dequeues one (directory, depth) pair, skips it when the
depth budget is exhausted, and otherwise scans its entries. -/
def findFilesFastAux (maxFiles : Option Nat) (maxDepth : Nat) :
    Nat → List (FSTree × List String × Nat) → Nat → List (List String × String)
  | 0, _, _ => []
  | _ + 1, [], _ => []
  | fuel + 1, (t, path, depth) :: rest, count =>
    if maxFilesStop maxFiles count then []
    else if depth ≥ maxDepth then findFilesFastAux maxFiles maxDepth fuel rest count
    else
      match t with
      | .file _ _ => findFilesFastAux maxFiles maxDepth fuel rest count
      | .dir _ entries =>
        let r := fastScanEntries maxFiles maxDepth path depth entries count
        r.1 ++ findFilesFastAux maxFiles maxDepth fuel (rest ++ r.2.1) r.2.2

/-- `find_files_fast` on an existing directory root. -/
def findFilesFast (root : FSTree) (maxFiles : Option Nat) (maxDepth : Nat) :
    List (List String × String) :=
  match root with
  | .file _ _ => []
  | .dir _ _ => findFilesFastAux maxFiles maxDepth (fsCount root + 1) [(root, [], 0)] 0

/-- The inner `for item in current_dir.iterdir()` loop of `find_files`
(regular recursive branch): yield files, enqueue every subdirectory while
the loop-iteration counter is below `max_depth - 1`; no protected-directory
check is performed. -/
def plainScanEntries (maxFiles : Option Nat) (path : List String)
    (currentDepth : Nat) :
    List FSTree → Nat → List (List String × String) × List (FSTree × List String) × Nat
  | [], count => ([], [], count)
  | e :: rest, count =>
    if maxFilesBreak maxFiles count then ([], [], count)
    else
      match e with
      | .file nm _ =>
        let r := plainScanEntries maxFiles path currentDepth rest (count + 1)
        ((path, nm) :: r.1, r.2.1, r.2.2)
      | .dir nm entries =>
        if currentDepth < 10 - 1 then
          let r := plainScanEntries maxFiles path currentDepth rest count
          (r.1, (FSTree.dir nm entries, path ++ [nm]) :: r.2.1, r.2.2)
        else plainScanEntries maxFiles path currentDepth rest count

/-- The `while dirs_to_process and current_depth < max_depth` loop of
`find_files` (with `max_depth = 10` and the loop counter incremented once
per dequeued directory, as in the source), with explicit fuel. -/
def findFilesPlainAux (maxFiles : Option Nat) :
    Nat → List (FSTree × List String) → Nat → Nat → List (List String × String)
  | 0, _, _, _ => []
  | _ + 1, [], _, _ => []
  | fuel + 1, (t, path) :: rest, currentDepth, count =>
    if currentDepth ≥ 10 then []
    else if maxFilesBreak maxFiles count then []
    else
      match t with
      | .file _ _ => findFilesPlainAux maxFiles fuel rest (currentDepth + 1) count
      | .dir _ entries =>
        let r := plainScanEntries maxFiles path currentDepth entries count
        r.1 ++ findFilesPlainAux maxFiles fuel (rest ++ r.2.1) (currentDepth + 1) r.2.2

/-- `find_files` on an existing directory root (pattern `"*"`, recursive). -/
def findFilesPlain (root : FSTree) (maxFiles : Option Nat) :
    List (List String × String) :=
  match root with
  | .file _ _ => []
  | .dir _ _ => findFilesPlainAux maxFiles (fsCount root + 1) [(root, [])] 0 0

/-! ## CCleaner instance state and its operations (cleaner.py) -/

/-- The mutable state of a `CCleaner` instance. -/
structure CleanerState where
  dryRun : Bool
  verbose : Bool
  enableSecurityChecks : Bool
  useEnhancedProgress : Bool
  stopRequested : Bool
  failedDeletions : List FailRec
deriving DecidableEq, Repr

/-- `CCleaner.__init__`. -/
def CleanerState.init : CleanerState :=
  { dryRun := false, verbose := false, enableSecurityChecks := true,
    useEnhancedProgress := true, stopRequested := false, failedDeletions := [] }

/-- The state-mutating entry points of `CCleaner`. -/
inductive CleanerOp where
  | stopOp
  | setDryRun (b : Bool)
  | setVerbose (b : Bool)
  | setSecurityChecks (b : Bool)
  | setEnhancedProgress (b : Bool)
  | trackFailedDeletion (r : FailRec)
  | clearFailedDeletions
deriving DecidableEq, Repr

/-- `_track_failed_deletion` list update, with the keep-last-50 cap. -/
def trackFailed (l : List FailRec) (r : FailRec) : List FailRec :=
  let l2 := l ++ [r]
  if l2.length > 100 then l2.drop (l2.length - 50) else l2

/-- Effect of each `CCleaner` method on the instance state; `stop()` is the
only method that writes `_stop_requested`, and it only sets it. -/
def applyOp (s : CleanerState) : CleanerOp → CleanerState
  | .stopOp => { s with stopRequested := true }
  | .setDryRun b => { s with dryRun := b }
  | .setVerbose b => { s with verbose := b }
  | .setSecurityChecks b => { s with enableSecurityChecks := b }
  | .setEnhancedProgress b => { s with useEnhancedProgress := b }
  | .trackFailedDeletion r => { s with failedDeletions := trackFailed s.failedDeletions r }
  | .clearFailedDeletions => { s with failedDeletions := [] }

/-- The category loop of `perform_full_scan`, over the per-category results
(the stop flag is checked at the top of each iteration; `break` under a
flag that is constant during the loop is equivalent to skipping the rest). -/
def fullScanLoop (stopRequested : Bool) (catResults : List CleanupResult) : CleanupResult :=
  catResults.foldl
    (fun acc r => if stopRequested then acc else mergeRunScan acc r)
    CleanupResult.init

/-- The category loop of `perform_full_cleanup`. -/
def fullCleanupLoop (stopRequested : Bool) (catResults : List CleanupResult) : CleanupResult :=
  catResults.foldl
    (fun acc r => if stopRequested then acc else mergeRunCleanup acc r)
    CleanupResult.init

/-- The per-path loop of `_process_paths` (and the result-collection loops of
the concurrent variants): per-path results merged with the guarded merge,
with the stop flag checked at the top of each iteration. -/
def pathLoop (stopRequested : Bool) (pathResults : List CleanupResult) : CleanupResult :=
  pathResults.foldl
    (fun acc r => if stopRequested then acc else mergeGuarded acc r)
    CleanupResult.init

/-! ## Specification-side definitions

These follow the wording of the specification, for comparison with the
embedded code. -/

/-- The intended order Safe < Moderate < HighRisk < Critical. -/
def levelRank : SecurityLevel → Nat
  | .safe => 0
  | .moderate => 1
  | .highRisk => 2
  | .critical => 3

/-- Maximum in the intended order. -/
def levelMax (a b : SecurityLevel) : SecurityLevel :=
  if levelRank a ≥ levelRank b then a else b

/-- The suggested minimum level of each of the seven checks, per the spec:
critical-directory and critical-pattern hits force Critical, the extension
check suggests its tier, age/size/content hits suggest at least Moderate,
and an in-use hit forces HighRisk. -/
def specCheckLevels (env : Env) (f : SysFile) : List SecurityLevel :=
  [ if checkCriticalDirectories f ≠ [] then .critical else .safe,
    if checkCriticalPatterns f ≠ [] then .critical else .safe,
    if (checkFileExtension f).1 ≠ [] then (checkFileExtension f).2 else .safe,
    if checkFileAge env f ≠ [] then .moderate else .safe,
    if checkFileSize f ≠ [] then .moderate else .safe,
    if checkFileInUse env f ≠ [] then .highRisk else .safe,
    if checkFileContent f ≠ [] then .moderate else .safe ]

/-- The maximum, in the order Safe < Moderate < HighRisk < Critical, of the
levels produced by the seven individual checks (the level the spec says
`check_file_security` returns). -/
def specMaxLevel (env : Env) (f : SysFile) : SecurityLevel :=
  (specCheckLevels env f).foldl levelMax .safe

/-- Joining a list of messages with `"; "` (the spec's merge of error
messages). -/
def semicolonJoin (msgs : List String) : String := msgs.foldl joinMsg ""

/-- The messages that the guarded merge records: those of constituents with
`success=false` and a non-empty message. -/
def flaggedMsgs (rs : List CleanupResult) : List String :=
  (rs.filter (fun r => !r.success && r.error_message ≠ "")).map (·.error_message)

/-- The counter invariant of CleanupResult. -/
def resultWf (r : CleanupResult) : Prop := r.files_deleted ≤ r.files_scanned

/-! ## Concrete inputs used to evaluate the embedded code -/

/-- A user-profile registry hive: name matches the critical pattern
`.*ntuser.*`, extension `.dat` is in no extension list, the file is old,
small, closed, and outside every critical directory. -/
def ntuserFileA : SysFile :=
  { pathStr := "C:\\Users\\bob\\ntuser.dat", absPath := "C:\\Users\\bob\\ntuser.dat",
    name := "ntuser.dat", fexists := true, isFile := true, statFails := false,
    size := 1000, mtime := 0, atime := 0, readFails := false, content := "hello",
    parentWritable := true, fileWritable := true, chmodOk := true, unlinkOutcomes := [] }

def quietEnvA : Env := { now := 100000, windows := true, admin := false, procs := [] }

/-- Same observable state as `ntuserFileA` (separate constant for the
critical-pattern fail-closed claim). -/
def ntuserFileB : SysFile :=
  { pathStr := "C:\\Users\\eve\\ntuser.dat", absPath := "C:\\Users\\eve\\ntuser.dat",
    name := "ntuser.dat", fexists := true, isFile := true, statFails := false,
    size := 2000, mtime := 0, atime := 0, readFails := false, content := "hi",
    parentWritable := true, fileWritable := true, chmodOk := true, unlinkOutcomes := [] }

def quietEnvB : Env := { now := 100000, windows := true, admin := false, procs := [] }

/-- An ordinary old temp file that passes every gate and deletes cleanly. -/
def tmpFileC4 : SysFile :=
  { pathStr := "c:\\temp\\build.tmp", absPath := "c:\\temp\\build.tmp",
    name := "build.tmp", fexists := true, isFile := true, statFails := false,
    size := 500, mtime := 0, atime := 0, readFails := false, content := "x",
    parentWritable := true, fileWritable := true, chmodOk := true, unlinkOutcomes := [] }

def envC4 : Env := { now := 100000, windows := true, admin := false, procs := [] }

/-- An old temp file whose every unlink attempt raises `PermissionError`. -/
def permFileC5 : SysFile :=
  { pathStr := "c:\\temp\\stuck.tmp", absPath := "c:\\temp\\stuck.tmp",
    name := "stuck.tmp", fexists := true, isFile := true, statFails := false,
    size := 700, mtime := 0, atime := 0, readFails := false, content := "x",
    parentWritable := true, fileWritable := true, chmodOk := true,
    unlinkOutcomes := [.permErr, .permErr, .permErr] }

def envC5 : Env := { now := 100000, windows := true, admin := false, procs := [] }

/-- A walk root with a `System32` subdirectory holding one file. -/
def treeC6 : FSTree :=
  .dir "root" [.dir "System32" [.file "junk.tmp" 10]]

/-- A walk root with one ordinary subdirectory holding one file. -/
def treeC6wit : FSTree :=
  .dir "root" [.dir "data" [.file "a.tmp" 5]]

/-- An old deletable temp file for the idempotence scenario. -/
def tmpFileC8 : SysFile :=
  { pathStr := "c:\\temp\\gone.tmp", absPath := "c:\\temp\\gone.tmp",
    name := "gone.tmp", fexists := true, isFile := true, statFails := false,
    size := 300, mtime := 0, atime := 0, readFails := false, content := "x",
    parentWritable := true, fileWritable := true, chmodOk := true, unlinkOutcomes := [] }

def envC8 : Env := { now := 100000, windows := true, admin := false, procs := [] }

/-- A file whose `stat()` raises, so its size is reported as 0. -/
def statFailFileC10 : SysFile :=
  { pathStr := "c:\\temp\\ghost.tmp", absPath := "c:\\temp\\ghost.tmp",
    name := "ghost.tmp", fexists := true, isFile := true, statFails := true,
    size := 500, mtime := 0, atime := 0, readFails := false, content := "x",
    parentWritable := true, fileWritable := true, chmodOk := true, unlinkOutcomes := [] }

def envC10 : Env := { now := 100000, windows := true, admin := false, procs := [] }

/-! ## Theorems -/

/-- Claim C1.  The claim says the verdict's level is the maximum, in the
order Safe < Moderate < HighRisk < Critical, of the seven checks' levels,
and that a level raised to Critical is never lowered by a later check.  The
code contradicts this: on `ntuser.dat` the critical-pattern check raises the
level to Critical, but the extension check compares the enum string values
(`"moderate" > "critical"` lexicographically) and replaces Critical with
Moderate, so the returned level is Moderate while the maximum of the seven
check levels is Critical. -/
theorem check_file_security_level_not_max :
    (checkFileSecurity quietEnvA ntuserFileA).security_level = SecurityLevel.moderate ∧
    specMaxLevel quietEnvA ntuserFileA = SecurityLevel.critical ∧
    pyValueGt SecurityLevel.moderate SecurityLevel.critical = true := by
  decide

/-- Claim C2.  The claim says a file matching a critical filename pattern
(such as `ntuser.dat`) always gets `is_safe = false` and level Critical.
On the code, the extension check lowers the Critical level (Python string
comparison of the enum values) to Moderate, so `ntuser.dat` comes back with
`is_safe = true` and level Moderate. -/
theorem critical_pattern_file_reported_safe :
    checkCriticalPatterns ntuserFileB ≠ [] ∧
    ntuserFileB.fexists = true ∧
    (checkFileSecurity quietEnvB ntuserFileB).is_safe = true ∧
    (checkFileSecurity quietEnvB ntuserFileB).security_level = SecurityLevel.moderate := by
  decide

/-! Helper lemmas about the merge steps. -/

theorem mergeGuarded_success (acc r : CleanupResult) :
    (mergeGuarded acc r).success = (acc.success && (r.success || r.error_message == "")) := by
  simp only [mergeGuarded]
  by_cases hs : r.success = true <;> by_cases hm : r.error_message = "" <;>
    simp [hs, hm]

theorem foldl_mergeGuarded_scanned (rs : List CleanupResult) :
    ∀ acc : CleanupResult, (rs.foldl mergeGuarded acc).files_scanned =
      acc.files_scanned + (rs.map (·.files_scanned)).sum := by
  induction rs with
  | nil => intro acc; simp
  | cons r t ih =>
    intro acc
    simp only [List.foldl_cons, List.map_cons, List.sum_cons]
    rw [ih]
    simp only [mergeGuarded]
    omega

theorem foldl_mergeGuarded_deleted (rs : List CleanupResult) :
    ∀ acc : CleanupResult, (rs.foldl mergeGuarded acc).files_deleted =
      acc.files_deleted + (rs.map (·.files_deleted)).sum := by
  induction rs with
  | nil => intro acc; simp
  | cons r t ih =>
    intro acc
    simp only [List.foldl_cons, List.map_cons, List.sum_cons]
    rw [ih]
    simp only [mergeGuarded]
    omega

theorem foldl_mergeGuarded_bytes (rs : List CleanupResult) :
    ∀ acc : CleanupResult, (rs.foldl mergeGuarded acc).bytes_freed =
      acc.bytes_freed + (rs.map (·.bytes_freed)).sum := by
  induction rs with
  | nil => intro acc; simp
  | cons r t ih =>
    intro acc
    simp only [List.foldl_cons, List.map_cons, List.sum_cons]
    rw [ih]
    simp only [mergeGuarded]
    omega

theorem foldl_mergeGuarded_success (rs : List CleanupResult) :
    ∀ acc : CleanupResult, (rs.foldl mergeGuarded acc).success =
      (acc.success && rs.all (fun r => r.success || r.error_message == "")) := by
  induction rs with
  | nil => intro acc; simp
  | cons r t ih =>
    intro acc
    simp only [List.foldl_cons, List.all_cons]
    rw [ih, mergeGuarded_success]
    rw [Bool.and_assoc]

theorem foldl_mergeGuarded_message (rs : List CleanupResult) :
    ∀ acc : CleanupResult, (rs.foldl mergeGuarded acc).error_message =
      (flaggedMsgs rs).foldl joinMsg acc.error_message := by
  induction rs with
  | nil => intro acc; simp [flaggedMsgs]
  | cons r t ih =>
    intro acc
    simp only [List.foldl_cons]
    rw [ih]
    by_cases h : (!r.success && r.error_message ≠ "") = true
    · have hflag : flaggedMsgs (r :: t) = r.error_message :: flaggedMsgs t := by
        simp only [flaggedMsgs, List.filter_cons]
        rw [if_pos h]
        simp
      rw [hflag]
      simp only [List.foldl_cons]
      congr 1
      simp only [mergeGuarded]
      rw [if_pos h]
    · have hflag : flaggedMsgs (r :: t) = flaggedMsgs t := by
        simp only [flaggedMsgs, List.filter_cons]
        rw [if_neg h]
      rw [hflag]
      congr 1
      simp only [mergeGuarded]
      rw [if_neg h]

theorem foldl_mergeRunCleanup_success (rs : List CleanupResult) :
    ∀ acc : CleanupResult, (rs.foldl mergeRunCleanup acc).success =
      (acc.success && rs.all (·.success)) := by
  induction rs with
  | nil => intro acc; simp
  | cons r t ih =>
    intro acc
    simp only [List.foldl_cons, List.all_cons]
    rw [ih]
    have hstep : (mergeRunCleanup acc r).success = (acc.success && r.success) := by
      simp only [mergeRunCleanup]
      by_cases hs : r.success = true <;> simp [hs]
    rw [hstep, Bool.and_assoc]

/-- Claim C3 (amended).  Merging constituent results sums the three counters
field-wise and `"; "`-joins error messages; but at the per-file/per-batch/
per-path merge levels the total's success flag is false iff some constituent
has `success=false` together with a NON-EMPTY error message (a constituent
failure with an empty message does not flip the flag), while at the
per-category-into-run level (`perform_full_cleanup`) the flag is the plain
AND of the constituent flags. -/
theorem cleanup_merge_characterization :
    (∀ rs : List CleanupResult,
      (aggGuarded rs).files_scanned = (rs.map (·.files_scanned)).sum ∧
      (aggGuarded rs).files_deleted = (rs.map (·.files_deleted)).sum ∧
      (aggGuarded rs).bytes_freed = (rs.map (·.bytes_freed)).sum) ∧
    (∀ rs : List CleanupResult,
      (aggGuarded rs).error_message = semicolonJoin (flaggedMsgs rs)) ∧
    (∀ rs : List CleanupResult,
      (aggGuarded rs).success = rs.all (fun r => r.success || r.error_message == "")) ∧
    (∀ rs : List CleanupResult,
      (aggRunCleanup rs).success = rs.all (·.success)) := by
  refine ⟨fun rs => ⟨?_, ?_, ?_⟩, fun rs => ?_, fun rs => ?_, fun rs => ?_⟩
  · rw [aggGuarded, foldl_mergeGuarded_scanned]; simp [CleanupResult.init]
  · rw [aggGuarded, foldl_mergeGuarded_deleted]; simp [CleanupResult.init]
  · rw [aggGuarded, foldl_mergeGuarded_bytes]; simp [CleanupResult.init]
  · rw [aggGuarded, foldl_mergeGuarded_message]; rfl
  · rw [aggGuarded, foldl_mergeGuarded_success]; simp [CleanupResult.init]
  · rw [aggRunCleanup, foldl_mergeRunCleanup_success]; simp [CleanupResult.init]

/-- Claim C3, counterexample to the claim as stated: a constituent that
failed without recording an error message (as a batch timeout does) leaves
the merged total's success flag true, so the total's success is NOT the
logical AND of the constituent success flags. -/
theorem merge_success_not_and_of_flags :
    (aggGuarded [{ success := false }]).success = true ∧
    ([({ success := false } : CleanupResult)].all (·.success)) = false := by
  decide

/-! Helper lemmas about per-file processing. -/

theorem processFileSized_scan_flags (env : Env) (fl : CleanerFlags) (f : SysFile) :
    (processFileSized env fl f true).1.success = true ∧
    (processFileSized env fl f true).1.error_message = "" ∧
    (processFileSized env fl f true).1.files_deleted = 0 := by
  unfold processFileSized
  by_cases h : getFileSize f = 0 <;> simp [h, CleanupResult.init]

theorem processSingleFile_scan_flags (env : Env) (fl : CleanerFlags) (f : SysFile) :
    (processSingleFile env fl f true).1.success = true ∧
    (processSingleFile env fl f true).1.error_message = "" ∧
    (processSingleFile env fl f true).1.files_deleted = 0 := by
  unfold processSingleFile
  split
  · split
    · simp [CleanupResult.init]
    · split
      · simp [CleanupResult.init]
      · split
        · simp [CleanupResult.init]
        · exact processFileSized_scan_flags env _ f
  · split
    · simp [CleanupResult.init]
    · exact processFileSized_scan_flags env _ f

theorem processFileSized_dry (env : Env) (sec st : Bool) (f : SysFile) :
    processFileSized env ⟨true, sec, st⟩ f false =
      ({ (processFileSized env ⟨true, sec, st⟩ f true).1 with
          files_deleted := (processFileSized env ⟨true, sec, st⟩ f true).1.files_scanned },
        f, []) := by
  unfold processFileSized
  by_cases h : getFileSize f = 0 <;> simp [h, CleanupResult.init, safeDeleteFile]

theorem processSingleFile_dry (env : Env) (sec st : Bool) (f : SysFile) :
    processSingleFile env ⟨true, sec, st⟩ f false =
      ({ (processSingleFile env ⟨true, sec, st⟩ f true).1 with
          files_deleted := (processSingleFile env ⟨true, sec, st⟩ f true).1.files_scanned },
        f, []) := by
  unfold processSingleFile
  split
  · split
    · simp [CleanupResult.init]
    · split
      · simp [CleanupResult.init]
      · split
        · simp [CleanupResult.init]
        · exact processFileSized_dry env sec st f
  · split
    · simp [CleanupResult.init]
    · exact processFileSized_dry env sec st f

theorem mergeGuarded_dry_step (acc r : CleanupResult) (hs : r.success = true) :
    mergeGuarded { acc with files_deleted := acc.files_scanned }
        { r with files_deleted := r.files_scanned } =
      { mergeGuarded acc r with
          files_deleted := (mergeGuarded acc r).files_scanned } := by
  simp [mergeGuarded, hs]

theorem batch_dry_aux (env : Env) (sec st : Bool) (files : List SysFile) :
    ∀ acc : CleanupResult,
      files.foldl (batchStep env ⟨true, sec, st⟩ false)
          { acc with files_deleted := acc.files_scanned } =
        { files.foldl (batchStep env ⟨true, sec, st⟩ true) acc with
            files_deleted :=
              (files.foldl (batchStep env ⟨true, sec, st⟩ true) acc).files_scanned } := by
  induction files with
  | nil => intro acc; rfl
  | cons f t ih =>
    intro acc
    simp only [List.foldl_cons]
    cases st with
    | true =>
      have h1 : ∀ so a, batchStep env ⟨true, sec, true⟩ so a f = a := by
        intro so a; simp [batchStep]
      rw [h1, h1]
      exact ih acc
    | false =>
      have hstep : batchStep env ⟨true, sec, false⟩ false
          { acc with files_deleted := acc.files_scanned } f =
          { batchStep env ⟨true, sec, false⟩ true acc f with
              files_deleted := (batchStep env ⟨true, sec, false⟩ true acc f).files_scanned } := by
        simp only [batchStep, Bool.false_eq_true, if_false]
        rw [processSingleFile_dry env sec false f]
        exact mergeGuarded_dry_step acc (processSingleFile env ⟨true, sec, false⟩ f true).1
          (processSingleFile_scan_flags env ⟨true, sec, false⟩ f).1
      rw [hstep]
      exact ih (batchStep env ⟨true, sec, false⟩ true acc f)

/-- Claim C4 (amended).  With `dry_run=true`, a clean pass makes exactly the
same gate and size decisions as a scan pass: per file and per batch,
`files_scanned` and `bytes_freed` are identical and nothing is removed from
disk (the dry-run delete leaves the path untouched); but `files_deleted`
equals `files_scanned` — every scanned file is counted as would-be-deleted —
rather than 0 as the claim states. -/
theorem dry_run_clean_matches_scan :
    (∀ (env : Env) (sec st : Bool) (f : SysFile),
      processSingleFile env ⟨true, sec, st⟩ f false =
        ({ (processSingleFile env ⟨true, sec, st⟩ f true).1 with
            files_deleted := (processSingleFile env ⟨true, sec, st⟩ f true).1.files_scanned },
          f, [])) ∧
    (∀ (env : Env) (sec st : Bool) (files : List SysFile),
      processFileBatch env ⟨true, sec, st⟩ files false =
        { processFileBatch env ⟨true, sec, st⟩ files true with
            files_deleted :=
              (processFileBatch env ⟨true, sec, st⟩ files true).files_scanned }) ∧
    (∀ (env : Env) (f : SysFile), safeDeleteFile env f true = (true, "", f)) := by
  refine ⟨processSingleFile_dry, fun env sec st files => ?_, fun env f => rfl⟩
  have h := batch_dry_aux env sec st files CleanupResult.init
  simpa [processFileBatch, CleanupResult.init] using h

/-- Claim C4, counterexample to the claim as stated: a dry-run clean pass
over a directory holding one ordinary temp file reports `files_deleted = 1`,
not 0. -/
theorem dry_run_clean_counts_deletions :
    (processFileBatch envC4 ⟨true, true, false⟩ [tmpFileC4] false).files_deleted = 1 ∧
    (processFileBatch envC4 ⟨true, true, false⟩ [tmpFileC4] false).files_scanned = 1 := by
  decide

/-! Helper lemmas about the safety gates and the fast batch loop. -/

theorem gate_passes_processes (env : Env) (fl : CleanerFlags) (f : SysFile) (so : Bool)
    (h : securityGatePasses env fl f = true) :
    processSingleFile env fl f so = processFileSized env fl f so := by
  unfold securityGatePasses at h
  unfold processSingleFile
  by_cases he : fl.enableSecurityChecks = true
  · rw [if_pos he] at h
    simp only [Bool.and_eq_true, Bool.not_eq_true', decide_eq_false_iff_not] at h
    obtain ⟨⟨h1, h2⟩, h3⟩ := h
    rw [if_pos he, if_neg h1, if_neg h2]
    simp [h3]
  · rw [if_neg he] at h
    rw [if_neg he]
    simp [h]

theorem processFileSized_delete_common (env : Env) (fl : CleanerFlags) (f : SysFile)
    (hd : fl.dryRun = false) (hsize : getFileSize f ≠ 0)
    (hfail : (safeDeleteFile env f false).1 = false)
    (hc : isCommonDeleteError (safeDeleteFile env f false).2.1 = true) :
    processFileSized env fl f false =
      (CleanupResult.init, (safeDeleteFile env f false).2.2,
        [⟨f.pathStr, (safeDeleteFile env f false).2.1⟩]) := by
  unfold processFileSized
  simp [hd, hsize, hfail, hc, CleanupResult.init]

theorem processFileSized_delete_serious (env : Env) (fl : CleanerFlags) (f : SysFile)
    (hd : fl.dryRun = false) (hsize : getFileSize f ≠ 0)
    (hfail : (safeDeleteFile env f false).1 = false)
    (hc : isCommonDeleteError (safeDeleteFile env f false).2.1 = false) :
    processFileSized env fl f false =
      ({ files_scanned := 1, bytes_freed := getFileSize f,
         error_message := (safeDeleteFile env f false).2.1, success := false },
        (safeDeleteFile env f false).2.2,
        [⟨f.pathStr, (safeDeleteFile env f false).2.1⟩]) := by
  unfold processFileSized
  simp [hd, hsize, hfail, hc]

theorem fastBatchStep_flags (env : Env) (fl : CleanerFlags) (so : Bool)
    (a : CleanupResult × List FailRec) (x : ScoredFile) :
    (fastBatchStep env fl so a x).1.success = a.1.success ∧
    (fastBatchStep env fl so a x).1.error_message = a.1.error_message := by
  unfold fastBatchStep
  by_cases h1 : fl.stopRequested = true
  · simp [h1]
  · by_cases h2 : (fl.enableSecurityChecks && !quickSafetyCheck x.file) = true
    · simp [h1, h2]
    · by_cases h3 : so = true
      · simp [h1, h2, h3]
      · by_cases h4 : (safeDeleteFile env x.file fl.dryRun).1 = true
        · simp [h1, h2, h3, h4]
        · simp [h1, h2, h3, h4]

theorem fastBatch_fold_flags (env : Env) (fl : CleanerFlags) (so : Bool)
    (l : List ScoredFile) :
    ∀ (acc : CleanupResult) (fails : List FailRec),
      acc.success = true → acc.error_message = "" →
      (l.foldl (fastBatchStep env fl so) (acc, fails)).1.success = true ∧
      (l.foldl (fastBatchStep env fl so) (acc, fails)).1.error_message = "" := by
  induction l with
  | nil => intro acc fails h1 h2; exact ⟨h1, h2⟩
  | cons x t ih =>
    intro acc fails h1 h2
    simp only [List.foldl_cons]
    have hstep := fastBatchStep_flags env fl so (acc, fails) x
    have := ih (fastBatchStep env fl so (acc, fails) x).1
      (fastBatchStep env fl so (acc, fails) x).2
      (by rw [hstep.1]; exact h1) (by rw [hstep.2]; exact h2)
    simpa using this

/-- Claim C5 (amended).  In `_process_single_file`, a deletion failure with a
common/expected error (permission denied, file in active use, insufficient
permissions) contributes 0 scanned files and 0 bytes, appends a
failed-deletion record, and leaves success true with no error message, while
a non-common failure keeps the file counted as scanned, sets success=false
and records the message; but in `_process_file_batch_fast` no deletion
failure of either kind ever marks the batch unsuccessful or records an error
message (the failed file stays counted as scanned with its bytes — see the
counterexample). -/
theorem common_delete_failure_handling :
    (∀ (env : Env) (fl : CleanerFlags) (f : SysFile),
      securityGatePasses env fl f = true → fl.dryRun = false →
      getFileSize f ≠ 0 → (safeDeleteFile env f false).1 = false →
      isCommonDeleteError (safeDeleteFile env f false).2.1 = true →
      processSingleFile env fl f false =
        (CleanupResult.init, (safeDeleteFile env f false).2.2,
          [⟨f.pathStr, (safeDeleteFile env f false).2.1⟩])) ∧
    (∀ (env : Env) (fl : CleanerFlags) (f : SysFile),
      securityGatePasses env fl f = true → fl.dryRun = false →
      getFileSize f ≠ 0 → (safeDeleteFile env f false).1 = false →
      isCommonDeleteError (safeDeleteFile env f false).2.1 = false →
      processSingleFile env fl f false =
        ({ files_scanned := 1, bytes_freed := getFileSize f,
           error_message := (safeDeleteFile env f false).2.1, success := false },
          (safeDeleteFile env f false).2.2,
          [⟨f.pathStr, (safeDeleteFile env f false).2.1⟩])) ∧
    (∀ (env : Env) (fl : CleanerFlags) (files : List SysFile) (so : Bool),
      (processFileBatchFast env fl files so).1.success = true ∧
      (processFileBatchFast env fl files so).1.error_message = "") := by
  refine ⟨?_, ?_, ?_⟩
  · intro env fl f hg hd hsize hfail hc
    rw [gate_passes_processes env fl f false hg]
    exact processFileSized_delete_common env fl f hd hsize hfail hc
  · intro env fl f hg hd hsize hfail hc
    rw [gate_passes_processes env fl f false hg]
    exact processFileSized_delete_serious env fl f hd hsize hfail hc
  · intro env fl files so
    unfold processFileBatchFast
    by_cases h : (files.filter (fun f => getFileSize f > 0)).isEmpty = true
    · simp [h, CleanupResult.init]
    · simp only [h, Bool.false_eq_true, if_false]
      exact fastBatch_fold_flags env fl so _ CleanupResult.init [] rfl rfl

/-- Claim C5, witness: a concrete old temp file whose unlink attempts all
raise `PermissionError` is silently skipped by `_process_single_file`. -/
theorem common_delete_failure_handling_witness :
    processSingleFile envC5 ⟨false, true, false⟩ permFileC5 false =
      (CleanupResult.init, (safeDeleteFile envC5 permFileC5 false).2.2,
        [⟨permFileC5.pathStr, (safeDeleteFile envC5 permFileC5 false).2.1⟩]) :=
  common_delete_failure_handling.1 envC5 ⟨false, true, false⟩ permFileC5
    (by decide) rfl (by decide) (by decide) (by decide)

/-- Claim C5, counterexample to the claim as stated: in the fast batch path,
the file whose deletion fails with "Permission denied" still contributes 1
to `files_scanned` and its full size to `bytes_freed`, not 0. -/
theorem fast_batch_counts_failed_file :
    (processFileBatchFast envC5 ⟨false, true, false⟩ [permFileC5] false).1.files_scanned = 1 ∧
    (processFileBatchFast envC5 ⟨false, true, false⟩ [permFileC5] false).1.bytes_freed = 700 ∧
    (processFileBatchFast envC5 ⟨false, true, false⟩ [permFileC5] false).1.files_deleted = 0 ∧
    isCommonDeleteError (safeDeleteFile envC5 permFileC5 false).2.1 = true := by
  decide

/-! Helper lemmas about the fast walker. -/

theorem fse_break (mf : Option Nat) (md : Nat) (path : List String) (depth : Nat)
    (e : FSTree) (rest : List FSTree) (count : Nat)
    (hb : maxFilesBreak mf count = true) :
    fastScanEntries mf md path depth (e :: rest) count = ([], [], count) := by
  unfold fastScanEntries
  rw [if_pos hb]

theorem fse_file (mf : Option Nat) (md : Nat) (path : List String) (depth : Nat)
    (nm : String) (sz : Nat) (rest : List FSTree) (count : Nat)
    (hb : maxFilesBreak mf count = false) :
    fastScanEntries mf md path depth (.file nm sz :: rest) count =
      ((path, nm) :: (fastScanEntries mf md path depth rest (count + 1)).1,
       (fastScanEntries mf md path depth rest (count + 1)).2.1,
       (fastScanEntries mf md path depth rest (count + 1)).2.2) := by
  conv_lhs => unfold fastScanEntries
  rw [hb]
  rfl

theorem fse_dir_enter (mf : Option Nat) (md : Nat) (path : List String) (depth : Nat)
    (nm : String) (es rest : List FSTree) (count : Nat)
    (hb : maxFilesBreak mf count = false)
    (hd : (depth < md - 1 && !isProtectedSystemDir nm) = true) :
    fastScanEntries mf md path depth (.dir nm es :: rest) count =
      ((fastScanEntries mf md path depth rest count).1,
       (FSTree.dir nm es, path ++ [nm], depth + 1) ::
         (fastScanEntries mf md path depth rest count).2.1,
       (fastScanEntries mf md path depth rest count).2.2) := by
  conv_lhs => unfold fastScanEntries
  rw [hb]
  simp only [hd]
  rfl

theorem fse_dir_skip (mf : Option Nat) (md : Nat) (path : List String) (depth : Nat)
    (nm : String) (es rest : List FSTree) (count : Nat)
    (hb : maxFilesBreak mf count = false)
    (hd : (depth < md - 1 && !isProtectedSystemDir nm) = false) :
    fastScanEntries mf md path depth (.dir nm es :: rest) count =
      fastScanEntries mf md path depth rest count := by
  conv_lhs => unfold fastScanEntries
  rw [hb]
  simp only [hd]
  rfl

theorem fastScan_yield_path (mf : Option Nat) (md : Nat) (path : List String)
    (depth : Nat) (entries : List FSTree) :
    ∀ count pr, pr ∈ (fastScanEntries mf md path depth entries count).1 →
      pr.1 = path := by
  induction entries with
  | nil => intro count pr h; simp [fastScanEntries] at h
  | cons e rest ih =>
    intro count pr h
    by_cases hb : maxFilesBreak mf count = true
    · rw [fse_break mf md path depth e rest count hb] at h
      simp at h
    · have hb2 : maxFilesBreak mf count = false := by simpa using hb
      cases e with
      | file nm sz =>
        rw [fse_file mf md path depth nm sz rest count hb2] at h
        rcases List.mem_cons.mp h with h1 | h2
        · rw [h1]
        · exact ih (count + 1) pr h2
      | dir nm es =>
        by_cases hd : (depth < md - 1 && !isProtectedSystemDir nm) = true
        · rw [fse_dir_enter mf md path depth nm es rest count hb2 hd] at h
          exact ih count pr h
        · rw [fse_dir_skip mf md path depth nm es rest count hb2 (by simpa using hd)] at h
          exact ih count pr h

theorem fastScan_enqueued (mf : Option Nat) (md : Nat) (path : List String)
    (depth : Nat) (entries : List FSTree) :
    ∀ count q, q ∈ (fastScanEntries mf md path depth entries count).2.1 →
      ∃ nm, q.2.1 = path ++ [nm] ∧ isProtectedSystemDir nm = false := by
  induction entries with
  | nil => intro count q h; simp [fastScanEntries] at h
  | cons e rest ih =>
    intro count q h
    by_cases hb : maxFilesBreak mf count = true
    · rw [fse_break mf md path depth e rest count hb] at h
      simp at h
    · have hb2 : maxFilesBreak mf count = false := by simpa using hb
      cases e with
      | file nm sz =>
        rw [fse_file mf md path depth nm sz rest count hb2] at h
        exact ih (count + 1) q h
      | dir nm es =>
        by_cases hd : (depth < md - 1 && !isProtectedSystemDir nm) = true
        · rw [fse_dir_enter mf md path depth nm es rest count hb2 hd] at h
          rcases List.mem_cons.mp h with h1 | h2
          · refine ⟨nm, ?_, ?_⟩
            · rw [h1]
            · have := (Bool.and_eq_true _ _).mp hd
              simpa using this.2
          · exact ih count q h2
        · rw [fse_dir_skip mf md path depth nm es rest count hb2 (by simpa using hd)] at h
          exact ih count q h

theorem fffa_stop (mf : Option Nat) (md fuel : Nat) (t : FSTree) (path : List String)
    (depth : Nat) (rest : List (FSTree × List String × Nat)) (count : Nat)
    (hs : maxFilesStop mf count = true) :
    findFilesFastAux mf md (fuel + 1) ((t, path, depth) :: rest) count = [] := by
  conv_lhs => unfold findFilesFastAux
  rw [hs]
  rfl

theorem fffa_deep (mf : Option Nat) (md fuel : Nat) (t : FSTree) (path : List String)
    (depth : Nat) (rest : List (FSTree × List String × Nat)) (count : Nat)
    (hs : maxFilesStop mf count = false) (hd : depth ≥ md) :
    findFilesFastAux mf md (fuel + 1) ((t, path, depth) :: rest) count =
      findFilesFastAux mf md fuel rest count := by
  conv_lhs => unfold findFilesFastAux
  rw [hs]
  simp only [if_pos hd]
  rfl

theorem fffa_file (mf : Option Nat) (md fuel : Nat) (nm : String) (sz : Nat)
    (path : List String) (depth : Nat) (rest : List (FSTree × List String × Nat))
    (count : Nat) (hs : maxFilesStop mf count = false) (hd : ¬ depth ≥ md) :
    findFilesFastAux mf md (fuel + 1) ((FSTree.file nm sz, path, depth) :: rest) count =
      findFilesFastAux mf md fuel rest count := by
  conv_lhs => unfold findFilesFastAux
  rw [hs]
  simp only [if_neg hd]
  rfl

theorem fffa_dir (mf : Option Nat) (md fuel : Nat) (nm : String) (es : List FSTree)
    (path : List String) (depth : Nat) (rest : List (FSTree × List String × Nat))
    (count : Nat) (hs : maxFilesStop mf count = false) (hd : ¬ depth ≥ md) :
    findFilesFastAux mf md (fuel + 1) ((FSTree.dir nm es, path, depth) :: rest) count =
      (fastScanEntries mf md path depth es count).1 ++
        findFilesFastAux mf md fuel
          (rest ++ (fastScanEntries mf md path depth es count).2.1)
          (fastScanEntries mf md path depth es count).2.2 := by
  conv_lhs => unfold findFilesFastAux
  rw [hs]
  simp only [if_neg hd]
  rfl

theorem findFilesFastAux_clean (mf : Option Nat) (md : Nat) (fuel : Nat) :
    ∀ (queue : List (FSTree × List String × Nat)) (count : Nat),
      (∀ item ∈ queue, ∀ c ∈ item.2.1, isProtectedSystemDir c = false) →
      ∀ pr ∈ findFilesFastAux mf md fuel queue count,
        ∀ c ∈ pr.1, isProtectedSystemDir c = false := by
  induction fuel with
  | zero => intro queue count _ pr h; simp [findFilesFastAux] at h
  | succ fuel ih =>
    intro queue count hq pr h
    cases queue with
    | nil => simp [findFilesFastAux] at h
    | cons item rest =>
      obtain ⟨t, path, depth⟩ := item
      by_cases hs : maxFilesStop mf count = true
      · rw [fffa_stop mf md fuel t path depth rest count hs] at h
        simp at h
      · have hs2 : maxFilesStop mf count = false := by simpa using hs
        have hrest : ∀ item ∈ rest, ∀ c ∈ item.2.1, isProtectedSystemDir c = false :=
          fun it hit => hq it (List.mem_cons_of_mem _ hit)
        by_cases hd : depth ≥ md
        · rw [fffa_deep mf md fuel t path depth rest count hs2 hd] at h
          exact ih rest count hrest pr h
        · cases t with
          | file nm sz =>
            rw [fffa_file mf md fuel nm sz path depth rest count hs2 hd] at h
            exact ih rest count hrest pr h
          | dir nm es =>
            rw [fffa_dir mf md fuel nm es path depth rest count hs2 hd] at h
            have hpath : ∀ c ∈ path, isProtectedSystemDir c = false :=
              hq (FSTree.dir nm es, path, depth) (List.mem_cons_self _ _)
            rcases List.mem_append.mp h with h1 | h2
            · have := fastScan_yield_path mf md path depth es count pr h1
              rw [this]
              exact hpath
            · refine ih _ _ ?_ pr h2
              intro it hit
              rcases List.mem_append.mp hit with hi1 | hi2
              · exact hrest it hi1
              · obtain ⟨dnm, heq, hprot⟩ := fastScan_enqueued mf md path depth es count it hi2
                intro c hc
                rw [heq] at hc
                rcases List.mem_append.mp hc with hc1 | hc2
                · exact hpath c hc1
                · rw [List.mem_singleton.mp hc2]
                  exact hprot

/-- Claim C6 (amended).  The fast walker `find_files_fast` never yields a
file lying beneath a directory whose name is in the protected denylist: in
every yielded (directory components below the root, file name) pair, no
component is a protected directory name.  (The plain `find_files` walker, by
contrast, applies no denylist — see the counterexample.) -/
theorem find_files_fast_skips_protected (root : FSTree) (mf : Option Nat) (md : Nat)
    (p : List String) (n : String) (h : (p, n) ∈ findFilesFast root mf md) :
    ∀ c ∈ p, isProtectedSystemDir c = false := by
  cases root with
  | file nm sz => simp [findFilesFast] at h
  | dir nm es =>
    have := findFilesFastAux_clean mf md (fsCount (FSTree.dir nm es) + 1)
      [(FSTree.dir nm es, [], 0)] 0 (by simp) (p, n) h
    simpa using this

/-- Claim C6, witness: the fast walker applied to a root with one ordinary
subdirectory yields the file inside it, and the theorem then certifies that
the directory name is not protected. -/
theorem find_files_fast_skips_protected_witness :
    isProtectedSystemDir "data" = false :=
  find_files_fast_skips_protected treeC6wit none 5 ["data"] "a.tmp" (by decide)
    "data" (by decide)

/-- Claim C6, counterexample to the claim as stated over every walk of "the
tree walker": the plain `find_files` walker descends into a `System32`
directory directly under the walk root and yields the file beneath it. -/
theorem find_files_descends_into_system32 :
    findFilesPlain treeC6 none = [(["System32"], "junk.tmp")] ∧
    isProtectedSystemDir "System32" = true := by
  decide

/-! Helper lemmas for the counter invariant. -/

theorem mergeGuarded_wf (acc r : CleanupResult) (h1 : resultWf acc) (h2 : resultWf r) :
    resultWf (mergeGuarded acc r) := by
  unfold resultWf at *
  unfold mergeGuarded
  simp only []
  omega

theorem mergeRunScan_deleted (acc r : CleanupResult) :
    (mergeRunScan acc r).files_deleted = acc.files_deleted := rfl

theorem mergeRunCleanup_wf (acc r : CleanupResult) (h1 : resultWf acc) (h2 : resultWf r) :
    resultWf (mergeRunCleanup acc r) := by
  unfold resultWf at *
  unfold mergeRunCleanup
  simp only []
  omega

theorem processFileSized_wf (env : Env) (fl : CleanerFlags) (f : SysFile) (so : Bool) :
    resultWf (processFileSized env fl f so).1 := by
  unfold processFileSized resultWf
  by_cases h : getFileSize f = 0
  · simp [h, CleanupResult.init]
  · by_cases hso : so = true
    · simp [h, hso]
    · by_cases hd : (safeDeleteFile env f fl.dryRun).1 = true
      · simp [h, hso, hd]
      · by_cases hc : isCommonDeleteError (safeDeleteFile env f fl.dryRun).2.1 = true
        · simp [h, hso, hd, hc, CleanupResult.init]
        · simp [h, hso, hd, hc]

theorem processSingleFile_wf (env : Env) (fl : CleanerFlags) (f : SysFile) (so : Bool) :
    resultWf (processSingleFile env fl f so).1 := by
  unfold processSingleFile
  split
  · split
    · simp [resultWf, CleanupResult.init]
    · split
      · simp [resultWf, CleanupResult.init]
      · split
        · simp [resultWf, CleanupResult.init]
        · exact processFileSized_wf env fl f so
  · split
    · simp [resultWf, CleanupResult.init]
    · exact processFileSized_wf env fl f so

theorem foldl_batchStep_wf (env : Env) (fl : CleanerFlags) (so : Bool)
    (files : List SysFile) :
    ∀ acc : CleanupResult, resultWf acc →
      resultWf (files.foldl (batchStep env fl so) acc) := by
  induction files with
  | nil => intro acc h; exact h
  | cons f t ih =>
    intro acc h
    simp only [List.foldl_cons]
    refine ih _ ?_
    unfold batchStep
    split
    · exact h
    · exact mergeGuarded_wf acc _ h (processSingleFile_wf env fl f so)

theorem fastBatchStep_wf (env : Env) (fl : CleanerFlags) (so : Bool)
    (a : CleanupResult × List FailRec) (x : ScoredFile) (h : resultWf a.1) :
    resultWf (fastBatchStep env fl so a x).1 := by
  unfold resultWf at *
  unfold fastBatchStep
  by_cases h1 : fl.stopRequested = true
  · simp [h1]; omega
  · by_cases h2 : (fl.enableSecurityChecks && !quickSafetyCheck x.file) = true
    · simp [h1, h2]; omega
    · by_cases h3 : so = true
      · simp [h1, h2, h3]; omega
      · by_cases h4 : (safeDeleteFile env x.file fl.dryRun).1 = true
        · simp [h1, h2, h3, h4]; omega
        · simp [h1, h2, h3, h4]; omega

theorem foldl_fastBatchStep_wf (env : Env) (fl : CleanerFlags) (so : Bool)
    (l : List ScoredFile) :
    ∀ (acc : CleanupResult) (fails : List FailRec), resultWf acc →
      resultWf ((l.foldl (fastBatchStep env fl so) (acc, fails)).1) := by
  induction l with
  | nil => intro acc fails h; exact h
  | cons x t ih =>
    intro acc fails h
    simp only [List.foldl_cons]
    have hstep := fastBatchStep_wf env fl so (acc, fails) x h
    have := ih (fastBatchStep env fl so (acc, fails) x).1
      (fastBatchStep env fl so (acc, fails) x).2 hstep
    simpa using this

theorem foldl_mergeRunScanStop_deleted (stq : Bool) (rs : List CleanupResult) :
    ∀ acc : CleanupResult,
      (rs.foldl (fun acc r => if stq then acc else mergeRunScan acc r) acc).files_deleted =
        acc.files_deleted := by
  induction rs with
  | nil => intro acc; rfl
  | cons r t ih =>
    intro acc
    simp only [List.foldl_cons]
    rw [ih]
    by_cases h : stq = true <;> simp [h, mergeRunScan_deleted]

theorem foldl_mergeRunCleanupStop_wf (stq : Bool) (rs : List CleanupResult) :
    ∀ acc : CleanupResult, resultWf acc → (∀ r ∈ rs, resultWf r) →
      resultWf (rs.foldl (fun acc r => if stq then acc else mergeRunCleanup acc r) acc) := by
  induction rs with
  | nil => intro acc h _; exact h
  | cons r t ih =>
    intro acc h hall
    simp only [List.foldl_cons]
    refine ih _ ?_ (fun x hx => hall x (List.mem_cons_of_mem _ hx))
    by_cases hst : stq = true
    · simp [hst, h]
    · have : resultWf r := hall r (List.mem_cons_self _ _)
      simp only [hst, Bool.false_eq_true, if_false]
      exact mergeRunCleanup_wf acc r h this

/-- Claim C7.  `files_deleted ≤ files_scanned` holds for every per-file
result, for both batch variants, and is preserved by every aggregation step
(guarded batch/path/category merges, and the full-scan and full-cleanup
category loops), so it holds for every produced CleanupResult. -/
theorem files_deleted_le_files_scanned :
    (∀ (env : Env) (fl : CleanerFlags) (f : SysFile) (so : Bool),
      resultWf (processSingleFile env fl f so).1) ∧
    (∀ (env : Env) (fl : CleanerFlags) (files : List SysFile) (so : Bool),
      resultWf (processFileBatch env fl files so)) ∧
    (∀ (env : Env) (fl : CleanerFlags) (files : List SysFile) (so : Bool),
      resultWf (processFileBatchFast env fl files so).1) ∧
    (∀ rs : List CleanupResult, (∀ r ∈ rs, resultWf r) → resultWf (aggGuarded rs)) ∧
    (∀ rs : List CleanupResult, (∀ r ∈ rs, resultWf r) → resultWf (aggRunCleanup rs)) ∧
    (∀ (stq : Bool) (rs : List CleanupResult), resultWf (fullScanLoop stq rs)) ∧
    (∀ (stq : Bool) (rs : List CleanupResult), (∀ r ∈ rs, resultWf r) →
      resultWf (fullCleanupLoop stq rs)) := by
  have hinit : resultWf CleanupResult.init := Nat.le_refl 0
  refine ⟨processSingleFile_wf, ?_, ?_, ?_, ?_, ?_, ?_⟩
  · intro env fl files so
    exact foldl_batchStep_wf env fl so files CleanupResult.init hinit
  · intro env fl files so
    unfold processFileBatchFast
    by_cases h : (files.filter (fun f => getFileSize f > 0)).isEmpty = true
    · simp [h, CleanupResult.init, resultWf]
    · simp only [h, Bool.false_eq_true, if_false]
      exact foldl_fastBatchStep_wf env fl so _ CleanupResult.init [] hinit
  · intro rs hall
    unfold aggGuarded
    have : ∀ l : List CleanupResult, (∀ r ∈ l, resultWf r) → ∀ acc, resultWf acc →
        resultWf (l.foldl mergeGuarded acc) := by
      intro l
      induction l with
      | nil => intro _ acc h; exact h
      | cons r t ih =>
        intro hl acc h
        simp only [List.foldl_cons]
        exact ih (fun x hx => hl x (List.mem_cons_of_mem _ hx)) _
          (mergeGuarded_wf acc r h (hl r (List.mem_cons_self _ _)))
    exact this rs hall CleanupResult.init hinit
  · intro rs hall
    unfold aggRunCleanup
    have : ∀ l : List CleanupResult, (∀ r ∈ l, resultWf r) → ∀ acc, resultWf acc →
        resultWf (l.foldl mergeRunCleanup acc) := by
      intro l
      induction l with
      | nil => intro _ acc h; exact h
      | cons r t ih =>
        intro hl acc h
        simp only [List.foldl_cons]
        exact ih (fun x hx => hl x (List.mem_cons_of_mem _ hx)) _
          (mergeRunCleanup_wf acc r h (hl r (List.mem_cons_self _ _)))
    exact this rs hall CleanupResult.init hinit
  · intro stq rs
    unfold fullScanLoop resultWf
    rw [foldl_mergeRunScanStop_deleted]
    exact Nat.zero_le _
  · intro stq rs hall
    exact foldl_mergeRunCleanupStop_wf stq rs CleanupResult.init hinit hall

/-- Claim C7, witness: the invariant holds on the aggregation of a concrete
well-formed constituent. -/
theorem files_deleted_le_files_scanned_witness :
    resultWf (aggGuarded [{ files_scanned := 2, files_deleted := 1, bytes_freed := 5 }]) :=
  files_deleted_le_files_scanned.2.2.2.1
    [{ files_scanned := 2, files_deleted := 1, bytes_freed := 5 }]
    (by intro r hr; rw [List.mem_singleton] at hr; subst hr; unfold resultWf; decide)

/-! Helper lemmas about the delete retry loop. -/

theorem deleteAttemptLoop_ok (n : Nat) :
    ∀ l, (deleteAttemptLoop l n).1 = true →
      (deleteAttemptLoop l n).2.1 = "" ∧ (deleteAttemptLoop l n).2.2 = true := by
  induction n with
  | zero => intro l h; simp [deleteAttemptLoop] at h
  | succ n ih =>
    intro l h
    cases l with
    | nil => exact ⟨rfl, rfl⟩
    | cons o rest =>
      cases o with
      | ok => exact ⟨rfl, rfl⟩
      | notFound => exact ⟨rfl, rfl⟩
      | permErr =>
        by_cases hn : n = 0
        · rw [hn] at h
          simp [deleteAttemptLoop] at h
        · simp only [deleteAttemptLoop, hn, if_false] at h ⊢
          exact ih rest h
      | osErr =>
        by_cases hn : n = 0
        · rw [hn] at h
          simp [deleteAttemptLoop] at h
        · simp only [deleteAttemptLoop, hn, if_false] at h ⊢
          exact ih rest h

theorem deleteAttemptLoop_notFound (n : Nat) :
    ∀ l, notFoundBefore l n = true → deleteAttemptLoop l n = (true, "", true) := by
  induction n with
  | zero => intro l h; simp [notFoundBefore] at h
  | succ n ih =>
    intro l h
    cases l with
    | nil => simp [notFoundBefore] at h
    | cons o rest =>
      cases o with
      | ok =>
        simp only [notFoundBefore, retriableOutcome, Bool.false_and, Bool.or_false] at h
        exact absurd h (by decide)
      | notFound => rfl
      | permErr =>
        simp only [notFoundBefore, retriableOutcome, Bool.true_and] at h
        have h2 : notFoundBefore rest n = true := by
          rcases (Bool.or_eq_true _ _).mp h with h1 | h1
          · exact absurd h1 (by decide)
          · exact h1
        have hn : n ≠ 0 := by
          intro hn
          rw [hn] at h2
          simp [notFoundBefore] at h2
        simp only [deleteAttemptLoop, hn, if_false]
        exact ih rest h2
      | osErr =>
        simp only [notFoundBefore, retriableOutcome, Bool.true_and] at h
        have h2 : notFoundBefore rest n = true := by
          rcases (Bool.or_eq_true _ _).mp h with h1 | h1
          · exact absurd h1 (by decide)
          · exact h1
        have hn : n ≠ 0 := by
          intro hn
          rw [hn] at h2
          simp [notFoundBefore] at h2
        simp only [deleteAttemptLoop, hn, if_false]
        exact ih rest h2

theorem safeDelete_notExists (env : Env) (f : SysFile) (h : f.fexists = false) :
    safeDeleteFile env f false = (true, "", f) := by
  unfold safeDeleteFile
  simp [h]

theorem safeDelete_success_shape (env : Env) (f : SysFile)
    (h : (safeDeleteFile env f false).1 = true) :
    (safeDeleteFile env f false).2.1 = "" ∧
    (safeDeleteFile env f false).2.2.fexists = false := by
  by_cases hex : f.fexists = true
  · by_cases hsys : isSystemFile f = true
    · exfalso
      unfold safeDeleteFile at h
      simp [hex, hsys] at h
    · by_cases hact : isLikelyActiveFile env f = true
      · exfalso
        unfold safeDeleteFile at h
        simp [hex, hsys, hact] at h
      · by_cases hcan : canDeleteFile env f = true
        · have hr : (deleteAttemptLoop f.unlinkOutcomes 3).1 = true := by
            unfold safeDeleteFile at h
            simpa [hex, hsys, hact, hcan] using h
          have hok := deleteAttemptLoop_ok 3 f.unlinkOutcomes hr
          unfold safeDeleteFile
          simp [hex, hsys, hact, hcan, hok.1, hok.2]
        · exfalso
          unfold safeDeleteFile at h
          simp [hex, hsys, hact, hcan] at h
  · have hx : f.fexists = false := by simpa using hex
    rw [safeDelete_notExists env f hx]
    exact ⟨rfl, hx⟩

/-- Claim C8.  `safe_delete_file` is idempotent on success: a path missing
at the existence re-check is reported as `(success=true, "")` untouched;
whenever a call succeeds, its error message is empty, and a second call on
the resulting state succeeds again with `(true, "")` because the file is
observed already gone; and a `FileNotFoundError` raised at any unlink
attempt (after only retriable failures) also yields `(true, "")` with the
file gone. -/
theorem safe_delete_idempotent :
    (∀ (env : Env) (f : SysFile), f.fexists = false →
      safeDeleteFile env f false = (true, "", f)) ∧
    (∀ (env : Env) (f : SysFile), (safeDeleteFile env f false).1 = true →
      (safeDeleteFile env f false).2.1 = "" ∧
      safeDeleteFile env (safeDeleteFile env f false).2.2 false =
        (true, "", (safeDeleteFile env f false).2.2)) ∧
    (∀ (env : Env) (f : SysFile), f.fexists = true → isSystemFile f = false →
      isLikelyActiveFile env f = false → canDeleteFile env f = true →
      notFoundWithin3 f.unlinkOutcomes = true →
      safeDeleteFile env f false = (true, "", { f with fexists := false })) := by
  refine ⟨safeDelete_notExists, ?_, ?_⟩
  · intro env f h
    have hshape := safeDelete_success_shape env f h
    exact ⟨hshape.1, safeDelete_notExists env _ hshape.2⟩
  · intro env f hex hsys hact hcan hnf
    have hloop := deleteAttemptLoop_notFound 3 f.unlinkOutcomes hnf
    unfold safeDeleteFile
    simp [hex, hsys, hact, hcan, hloop]

/-- Claim C8, witness: deleting a concrete ordinary temp file succeeds, and
the second call on the resulting state reports `(true, "")`. -/
theorem safe_delete_idempotent_witness :
    (safeDeleteFile envC8 tmpFileC8 false).1 = true ∧
    (safeDeleteFile envC8 tmpFileC8 false).2.1 = "" ∧
    safeDeleteFile envC8 (safeDeleteFile envC8 tmpFileC8 false).2.2 false =
      (true, "", (safeDeleteFile envC8 tmpFileC8 false).2.2) := by
  refine ⟨by decide, ?_, ?_⟩
  · exact (safe_delete_idempotent.2.1 envC8 tmpFileC8 (by decide)).1
  · exact (safe_delete_idempotent.2.1 envC8 tmpFileC8 (by decide)).2

/-! Helper lemmas for the stop flag. -/

theorem foldl_fixed {α β : Type} (f : α → β → α) (h : ∀ a b, f a b = a) :
    ∀ (l : List β) (a : α), l.foldl f a = a := by
  intro l
  induction l with
  | nil => intro a; rfl
  | cons b t ih =>
    intro a
    simp only [List.foldl_cons, h]
    exact ih a

theorem applyOp_keeps_stop (s : CleanerState) (op : CleanerOp)
    (h : s.stopRequested = true) : (applyOp s op).stopRequested = true := by
  cases op <;> simp [applyOp, h]

theorem foldl_applyOp_keeps_stop (ops : List CleanerOp) :
    ∀ s : CleanerState, s.stopRequested = true →
      (ops.foldl applyOp s).stopRequested = true := by
  induction ops with
  | nil => intro s h; exact h
  | cons op t ih =>
    intro s h
    simp only [List.foldl_cons]
    exact ih (applyOp s op) (applyOp_keeps_stop s op h)

/-- Claim C9.  `stop()` is the only method writing the stop flag and it only
sets it, so after a stop the flag stays set across any sequence of instance
operations; and with the flag set, the full-scan and full-cleanup category
loops, the per-batch loop and the fast per-batch loop all observe it at
their first check and return a fresh empty result without processing any
category, file or batch. -/
theorem stop_flag_permanent :
    (∀ (ops : List CleanerOp) (d v e u : Bool) (fl : List FailRec),
      (ops.foldl applyOp ⟨d, v, e, u, true, fl⟩).stopRequested = true) ∧
    (∀ rs : List CleanupResult, fullScanLoop true rs = CleanupResult.init) ∧
    (∀ rs : List CleanupResult, fullCleanupLoop true rs = CleanupResult.init) ∧
    (∀ rs : List CleanupResult, pathLoop true rs = CleanupResult.init) ∧
    (∀ (env : Env) (d e : Bool) (files : List SysFile) (so : Bool),
      processFileBatch env ⟨d, e, true⟩ files so = CleanupResult.init) ∧
    (∀ (env : Env) (d e : Bool) (files : List SysFile) (so : Bool),
      processFileBatchFast env ⟨d, e, true⟩ files so = (CleanupResult.init, [])) := by
  refine ⟨?_, ?_, ?_, ?_, ?_, ?_⟩
  · intro ops d v e u fl
    exact foldl_applyOp_keeps_stop ops ⟨d, v, e, u, true, fl⟩ rfl
  · intro rs
    exact foldl_fixed _ (fun a r => rfl) rs CleanupResult.init
  · intro rs
    exact foldl_fixed _ (fun a r => rfl) rs CleanupResult.init
  · intro rs
    exact foldl_fixed _ (fun a r => rfl) rs CleanupResult.init
  · intro env d e files so
    exact foldl_fixed _ (fun a f => rfl) files CleanupResult.init
  · intro env d e files so
    unfold processFileBatchFast
    by_cases h : (files.filter (fun f => getFileSize f > 0)).isEmpty = true
    · simp [h]
    · simp only [h, Bool.false_eq_true, if_false]
      exact foldl_fixed _ (fun a x => rfl) _ (CleanupResult.init, [])

/-- Claim C10.  A file whose size is reported as 0 — including any file
whose `stat()` fails, since `get_file_size` returns 0 on any OS error — is
skipped by `_process_single_file`: the result has `files_scanned = 0`,
`files_deleted = 0` and `bytes_freed = 0`, the path is untouched and no
failed-deletion record is appended, in scan and in clean mode alike. -/
theorem zero_size_file_skipped (env : Env) (fl : CleanerFlags) (f : SysFile)
    (so : Bool) (h : getFileSize f = 0) :
    processSingleFile env fl f so = (CleanupResult.init, f, []) := by
  unfold processSingleFile
  split
  · split
    · rfl
    · split
      · rfl
      · split
        · rfl
        · unfold processFileSized
          simp [h]
  · split
    · rfl
    · unfold processFileSized
      simp [h]

/-- Claim C10, witness: a concrete file whose `stat()` raises is reported
as size 0 and is skipped. -/
theorem zero_size_file_skipped_witness :
    processSingleFile envC10 ⟨false, true, false⟩ statFailFileC10 true =
      (CleanupResult.init, statFailFileC10, []) :=
  zero_size_file_skipped envC10 ⟨false, true, false⟩ statFailFileC10 true (by decide)

end CClean
